import Mathlib

/-!
Verification development for the Doclingflow document-processing pipeline.

The repository sources under version control here contain the frontend
(Next.js/TypeScript service clients and pages) together with the project
plan and README; the backend pipeline (orchestrator, chunker, embedder,
vector-store adapter, metadata models, implemented per the plan in
`backend/`) is not among the checked-in sources.  Backend behaviour is
therefore modelled from the specification, as marked on each definition;
frontend behaviour (the search page) is embedded from the TypeScript
source directly.
-/

namespace Doclingflow

/-- Modelled from the spec: error taxonomy of §7 for the backend pipeline
(backend error classes are not among the checked-in sources). -/
inductive PErr where
  | unsupportedFormat
  | extractionError
  | classificationError
  | entityExtractionError
  | configurationError
  | embeddingError
  | storeError
  | timeoutError
  | cancellationError
deriving DecidableEq, Repr

/-- Modelled from the spec: §7 propagation policy — configuration errors,
unsupported-format errors and cancellation are non-retryable; stage-local
transient errors are retryable. -/
def retryable : PErr → Bool
  | PErr.unsupportedFormat => false
  | PErr.configurationError => false
  | PErr.cancellationError => false
  | _ => true

/-- Modelled from the spec: retry configuration of §4.7 (base delay,
maximum delay, maximum attempts per stage). -/
structure RetryConfig where
  base : Nat
  maxDelay : Nat
  maxAttempts : Nat
deriving DecidableEq, Repr

/-- Modelled from the spec: `backoff(attempt) = min(max_delay, base * 2^attempt)` (§4.7). -/
def backoff (cfg : RetryConfig) (attempt : Nat) : Nat :=
  min cfg.maxDelay (cfg.base * 2 ^ attempt)

/-- Outcome of running one pipeline stage through the retry loop: the
number of tries made, the backoff waits performed between tries (in
order), and the final result. -/
structure StageReport (α : Type) where
  tries : Nat
  waits : List Nat
  result : Except PErr α
deriving Repr

/-- Modelled from the spec: the per-stage retry loop of §4.7.  `run a` is
the outcome of attempt number `a`; `fuel` is the number of attempts still
allowed.  On a retryable failure with attempts remaining the loop waits
`backoff attempt` and re-enters the same stage; otherwise it stops with
the last error. -/
def retryGo (cfg : RetryConfig) (run : Nat → Except PErr α) :
    Nat → Nat → StageReport α
  | _, 0 => ⟨0, [], Except.error PErr.timeoutError⟩
  | attempt, Nat.succ fuel =>
    match run attempt with
    | Except.ok a => ⟨1, [], Except.ok a⟩
    | Except.error e =>
      match retryable e, fuel with
      | true, Nat.succ _ =>
        let r := retryGo cfg run (attempt + 1) fuel
        ⟨r.tries + 1, backoff cfg attempt :: r.waits, r.result⟩
      | _, _ => ⟨1, [], Except.error e⟩

/-- Modelled from the spec: run a stage with a fresh attempt counter and
the configured attempt budget. -/
def retryRun (cfg : RetryConfig) (run : Nat → Except PErr α) : StageReport α :=
  retryGo cfg run 0 cfg.maxAttempts

/-- One produced chunk: its text together with the source span
`[start, stop)` it was cut from (start/end offsets of §4.4). -/
structure Chunk where
  text : List Char
  start : Nat
  stop : Nat
deriving DecidableEq, Repr

/-- Modelled from the spec: the sliding-window pass of the chunker
(§4.4, `backend/services/chunker.py` is not among the checked-in
sources).  Starting at `start`, each window covers at most `size`
characters; each window after the first begins `overlap` characters
before the end of the previous window's source span.  `fuel` bounds the
recursion and is chosen large enough to never run out. -/
def chunkGo (text : List Char) (size overlap : Nat) : Nat → Nat → List Chunk
  | _, 0 => []
  | start, Nat.succ fuel =>
    let e := min text.length (start + size)
    let c : Chunk := ⟨(text.drop start).take (e - start), start, e⟩
    if e < text.length then c :: chunkGo text size overlap (e - overlap) fuel
    else [c]

/-- Modelled from the spec: `chunk(text, chunk_size, overlap)` (§4.4) —
a deterministic pure function that fails only on invalid configuration
(`chunk_size <= 0` or `overlap >= chunk_size`), returns an empty
sequence on empty input, and otherwise produces the overlapping
windows. -/
def chunk (text : List Char) (size overlap : Int) : Except PErr (List Chunk) :=
  if size ≤ 0 ∨ overlap ≥ size then Except.error PErr.configurationError
  else if text = [] then Except.ok []
  else Except.ok (chunkGo text size.toNat overlap.toNat 0 text.length)

/-- Concatenating the chunk texts in order with the overlaps removed:
the first chunk contributes its whole text, every later chunk its text
with the first `overlap` characters dropped. -/
def reconstruct (overlap : Nat) : List Chunk → List Char
  | [] => []
  | c :: cs => c.text ++ (cs.map (fun d => d.text.drop overlap)).flatten

/-- The tail contribution to `reconstruct`: every chunk with its first
`overlap` characters dropped. -/
def reconTail (overlap : Nat) (cs : List Chunk) : List Char :=
  (cs.map (fun d => d.text.drop overlap)).flatten

/-- Modelled from the spec: one record held by the vector store — a
chunk id with its vector and metadata (§4.6; the vector-store adapter
`backend/core/qdrant_client.py` is not among the checked-in sources). -/
structure VecRec where
  id : Nat
  vec : List Int
  meta : List (Nat × Nat)
deriving DecidableEq, Repr

/-- Modelled from the spec: idempotent upsert by chunk id (§4.6) —
re-upserting an existing id replaces the prior vector and metadata in
place; a fresh id is appended. -/
def upsert (store : List VecRec) (r : VecRec) : List VecRec :=
  if store.any (fun s => s.id == r.id) then
    store.map (fun s => if s.id == r.id then r else s)
  else store ++ [r]

/-- Number of records the store holds under a given chunk id. -/
def countId (store : List VecRec) (i : Nat) : Nat :=
  (store.filter (fun s => s.id == i)).length

/-- Job status as declared by `ProcessingJob` in
`frontend/src/services/settings.ts` and §3. -/
inductive JobStatus where
  | pending
  | processing
  | completed
  | failed
deriving DecidableEq, Repr

/-- Whether a job is active (non-terminal): `pending` or `processing`. -/
def isActive (st : JobStatus) : Bool :=
  match st with
  | JobStatus.pending => true
  | JobStatus.processing => true
  | _ => false

/-- Modelled from the spec: a `ProcessingJob` row of the metadata store
(§3; the SQLAlchemy models of `backend/schemas/models.py` are not among
the checked-in sources) — id, owning document's content hash, status. -/
structure Job where
  id : Nat
  docHash : Nat
  status : JobStatus
deriving DecidableEq, Repr

/-- Modelled from the spec: the `Document` row fields relevant to
deduplication — id and content hash (§3; backend model not among the
checked-in sources, the frontend DTO in part_002 omits the hash). -/
structure DocRec where
  id : Nat
  hash : Nat
deriving DecidableEq, Repr

/-- Modelled from the spec: the metadata store's view used at enqueue
time — document rows, job rows and an id counter. -/
structure Store where
  docs : List DocRec
  jobs : List Job
  nextId : Nat
deriving DecidableEq, Repr

/-- The existing active job for a content hash, if any. -/
def findActive (s : Store) (h : Nat) : Option Job :=
  s.jobs.find? (fun j => j.docHash == h && isActive j.status)

/-- Number of active jobs the store holds for a content hash. -/
def countActive (s : Store) (h : Nat) : Nat :=
  (s.jobs.filter (fun j => j.docHash == h && isActive j.status)).length

/-- Modelled from the spec: duplicate suppression at job creation (§4.7,
§5) — a compare-and-set keyed by content hash: when an active job for the
hash exists the submission joins it (its id is returned, nothing is
created); otherwise a pending job (and a document row when the hash is
new) is created. -/
def submit (s : Store) (h : Nat) : Store × Nat :=
  match findActive s h with
  | some j => (s, j.id)
  | none =>
    let docs := if s.docs.any (fun d => d.hash == h) then s.docs
                else ⟨s.nextId, h⟩ :: s.docs
    (⟨docs, ⟨s.nextId, h, JobStatus.pending⟩ :: s.jobs, s.nextId + 1⟩, s.nextId)

/-- Modelled from the spec: the content hash — a deterministic
fingerprint of the file's byte stream (§3, glossary; the backend hashing
code is not among the checked-in sources), here a rolling hash reduced
modulo `2^64`. -/
def contentHash (bytes : List Nat) : Nat :=
  bytes.foldl (fun acc b => (acc * 131 + b) % 2 ^ 64) 5381

/-- Modelled from the spec: ingestion of a byte stream — hash the bytes
and submit an ingestion event keyed by the content hash. -/
def ingest (s : Store) (bytes : List Nat) : Store × Nat :=
  submit s (contentHash bytes)

/-- Modelled from the spec: the classification result (§4.2;
`Document.classification` in part_002). -/
structure Classification where
  category : List Char
  confidence : Int
deriving DecidableEq, Repr

/-- Modelled from the spec: a typed entity (§4.3; `Document.entities`
in part_002). -/
structure Entity where
  etype : List Char
  value : List Char
deriving DecidableEq, Repr

/-- Modelled from the spec: the Document fields the pipeline persists
stage by stage (§3, §4.7). -/
structure Doc where
  classification : Option Classification
  entities : Option (List Entity)
  chunkCount : Nat
  errorMessage : Option PErr
deriving DecidableEq, Repr

/-- Modelled from the spec: the external collaborators of one pipeline
run (§6), as per-attempt outcomes — attempt `a` of a stage yields
`...A a`.  The two Storing commits (metadata, vector) are separate
booleans per attempt. -/
structure Env where
  extractA : Nat → Except PErr (List Char)
  classifyA : Nat → Except PErr Classification
  entitiesA : Nat → Except PErr (List Entity)
  embedA : Nat → Except PErr (List (List Int))
  metaCommitA : Nat → Bool
  vecCommitA : Nat → Bool

/-- Modelled from the spec: one attempt of the Storing stage — it
succeeds exactly when both the metadata commit and the vector commit
succeed (§4.7 progress mapping, §5). -/
def storeAttempt (env : Env) (a : Nat) : Except PErr Unit :=
  if env.metaCommitA a && env.vecCommitA a then Except.ok ()
  else Except.error PErr.storeError

/-- The orchestrator's durable footprint of one run: the persisted
Document fields, the persisted progress values in order, and the final
job status. -/
structure RunState where
  doc : Doc
  progressLog : List Nat
  status : JobStatus
deriving DecidableEq, Repr

/-- Modelled from the spec: the pipeline orchestrator state machine
(§4.7; `backend/tasks/processing.py` is not among the checked-in
sources).  Stages run in order, each behind the retry loop; each stage
transition persists the job progress before the next stage begins; a
stage result is persisted onto the Document as soon as its stage
succeeds; a stage failure after retries marks the job failed with the
last error, keeping earlier persisted results. -/
def runPipeline (cfg : RetryConfig) (size overlap : Int) (env : Env) : RunState :=
  match (retryRun cfg env.extractA).result with
  | Except.error e => ⟨⟨none, none, 0, some e⟩, [0], JobStatus.failed⟩
  | Except.ok text =>
    match (retryRun cfg env.classifyA).result with
    | Except.error e => ⟨⟨none, none, 0, some e⟩, [0, 16], JobStatus.failed⟩
    | Except.ok c =>
      match (retryRun cfg env.entitiesA).result with
      | Except.error e => ⟨⟨some c, none, 0, some e⟩, [0, 16, 33], JobStatus.failed⟩
      | Except.ok es =>
        match chunk text size overlap with
        | Except.error e => ⟨⟨some c, some es, 0, some e⟩, [0, 16, 33, 50], JobStatus.failed⟩
        | Except.ok cs =>
          match (retryRun cfg env.embedA).result with
          | Except.error e =>
            ⟨⟨some c, some es, cs.length, some e⟩, [0, 16, 33, 50, 66], JobStatus.failed⟩
          | Except.ok _ =>
            match (retryRun cfg (storeAttempt env)).result with
            | Except.error e =>
              ⟨⟨some c, some es, cs.length, some e⟩, [0, 16, 33, 50, 66, 83], JobStatus.failed⟩
            | Except.ok _ =>
              ⟨⟨some c, some es, cs.length, none⟩, [0, 16, 33, 50, 66, 83, 100],
                JobStatus.completed⟩

/-- JavaScript whitespace (the characters `String.prototype.trim`
strips) for the query guard of the search page. -/
def isWs (c : Char) : Bool :=
  c = ' ' || c = '\t' || c = '\n' || c = '\r'

/-- `String.prototype.trim`: strip whitespace from both ends
(part_005 uses `searchQuery.query.trim()`). -/
def jsTrim (s : List Char) : List Char :=
  ((s.dropWhile isWs).reverse.dropWhile isWs).reverse

/-- The two search modes of the search page (part_005). -/
inductive SearchKind where
  | semantic
  | hybrid
deriving DecidableEq, Repr

/-- A search request issued to the backend: which endpoint and which
query string (part_005, `searchApi.semanticSearch` / `hybridSearch`). -/
structure SearchReq where
  kind : SearchKind
  query : List Char
deriving DecidableEq, Repr

/-- A displayed search result row (part_003, `SearchResult`). -/
structure SearchResultR where
  id : Nat
  score : Int
deriving DecidableEq, Repr

/-- The component state of `SearchPage` (part_005): the query string,
the selected search type, the displayed results and the in-flight
flag. -/
structure PageState where
  query : List Char
  kind : SearchKind
  results : List SearchResultR
  isSearching : Bool
deriving Repr

/-- `handleSearch` from part_005: guard `if (!searchQuery.query.trim())
return` — on an empty-after-trim query nothing is requested and the
state is untouched; otherwise one request is issued to the selected
endpoint and the results are replaced by the response. The second
component logs the requests performed. -/
def handleSearch (api : SearchReq → List SearchResultR) (st : PageState) :
    PageState × List SearchReq :=
  if jsTrim st.query = [] then (st, [])
  else
    let req : SearchReq := ⟨st.kind, st.query⟩
    (⟨st.query, st.kind, api req, false⟩, [req])

/-- The search button's `disabled` prop from part_005:
`isSearching || !searchQuery.query.trim()`. -/
def searchDisabled (st : PageState) : Bool :=
  st.isSearching || jsTrim st.query == []

/-- Adjacency of two consecutive chunks: the later one begins `overlap`
characters before the end of the earlier one's source span, and the
earlier one's span is a full window of `size` characters. -/
def chunkAdj (size overlap : Nat) (a b : Chunk) : Prop :=
  b.start + overlap = a.stop ∧ a.stop = a.start + size


theorem reconTail_nil (o : Nat) : reconTail o [] = [] := rfl

theorem reconTail_cons (o : Nat) (c : Chunk) (cs : List Chunk) :
    reconTail o (c :: cs) = c.text.drop o ++ reconTail o cs := rfl

theorem reconstruct_cons (o : Nat) (c : Chunk) (cs : List Chunk) :
    reconstruct o (c :: cs) = c.text ++ reconTail o cs := rfl

theorem reconTail_chunkGo (text : List Char) (size overlap : Nat)
    (hso : overlap < size) :
    ∀ fuel start, start < text.length → text.length - start ≤ fuel →
      reconTail overlap (chunkGo text size overlap start fuel) =
        text.drop (start + overlap) := by
  intro fuel
  induction fuel with
  | zero => intro start hlt hle; omega
  | succ f ih =>
    intro start hlt hle
    simp only [chunkGo]
    by_cases hfull : start + size < text.length
    · have hmin : min text.length (start + size) = start + size :=
        Nat.min_eq_right (Nat.le_of_lt hfull)
      rw [hmin, if_pos hfull]
      rw [reconTail_cons]
      rw [ih (start + size - overlap) (by omega) (by omega)]
      have h1 : start + size - overlap + overlap = start + size := by omega
      rw [h1]
      have h2 : start + size - start = size := by omega
      rw [h2]
      rw [List.drop_take]
      rw [List.drop_drop]
      have h3 : text.drop (start + size) =
          (text.drop (start + overlap)).drop (size - overlap) := by
        rw [List.drop_drop]
        congr 1
        omega
      rw [h3, List.take_append_drop]
    · have hmin : min text.length (start + size) = text.length :=
        Nat.min_eq_left (by omega)
      rw [hmin, if_neg (by omega)]
      rw [reconTail_cons, reconTail_nil, List.append_nil]
      have h1 : text.length - start = (text.drop start).length :=
        (List.length_drop start text).symm
      rw [h1, List.take_length, List.drop_drop]

theorem reconstruct_chunkGo (text : List Char) (size overlap : Nat)
    (hso : overlap < size) (fuel start : Nat)
    (hlt : start < text.length) (hle : text.length - start ≤ fuel) :
    reconstruct overlap (chunkGo text size overlap start fuel) =
      text.drop start := by
  cases fuel with
  | zero => omega
  | succ f =>
    simp only [chunkGo]
    by_cases hfull : start + size < text.length
    · have hmin : min text.length (start + size) = start + size :=
        Nat.min_eq_right (Nat.le_of_lt hfull)
      rw [hmin, if_pos hfull]
      rw [reconstruct_cons]
      rw [reconTail_chunkGo text size overlap hso f (start + size - overlap)
        (by omega) (by omega)]
      have h1 : start + size - overlap + overlap = start + size := by omega
      rw [h1]
      have h2 : start + size - start = size := by omega
      rw [h2]
      have h3 : text.drop (start + size) = (text.drop start).drop size := by
        rw [List.drop_drop]
      rw [h3, List.take_append_drop]
    · have hmin : min text.length (start + size) = text.length :=
        Nat.min_eq_left (by omega)
      rw [hmin, if_neg (by omega)]
      rw [reconstruct_cons, reconTail_nil, List.append_nil]
      have h1 : text.length - start = (text.drop start).length :=
        (List.length_drop start text).symm
      rw [h1, List.take_length]

theorem chunkGo_succ_shape (text : List Char) (size overlap start f : Nat) :
    ∃ tl, chunkGo text size overlap start (f + 1) =
      Chunk.mk ((text.drop start).take (min text.length (start + size) - start))
        start (min text.length (start + size)) :: tl := by
  simp only [chunkGo]
  by_cases hfull : min text.length (start + size) < text.length
  · exact ⟨_, if_pos hfull⟩
  · exact ⟨[], if_neg hfull⟩

theorem chain_chunkGo (text : List Char) (size overlap : Nat)
    (hso : overlap < size) :
    ∀ fuel start, List.Chain' (chunkAdj size overlap)
      (chunkGo text size overlap start fuel) := by
  intro fuel
  induction fuel with
  | zero => intro start; simp [chunkGo]
  | succ f ih =>
    intro start
    simp only [chunkGo]
    by_cases hfull : min text.length (start + size) < text.length
    · rw [if_pos hfull]
      have hmin : min text.length (start + size) = start + size := by
        rcases Nat.le_total text.length (start + size) with h | h
        · rw [Nat.min_eq_left h] at hfull; omega
        · exact Nat.min_eq_right h
      rw [List.chain'_cons']
      refine ⟨?_, ih (min text.length (start + size) - overlap)⟩
      intro b hb
      cases f with
      | zero => simp [chunkGo] at hb
      | succ f2 =>
        obtain ⟨tl, htl⟩ := chunkGo_succ_shape text size overlap
          (min text.length (start + size) - overlap) f2
        rw [htl] at hb
        simp only [List.head?_cons, Option.mem_def, Option.some_inj] at hb
        subst hb
        constructor
        · simp only [hmin]
          omega
        · simp only [hmin]
    · rw [if_neg hfull]
      simp

theorem retryGo_last_err (cfg : RetryConfig) (run : Nat → Except PErr α)
    (attempt : Nat) (e : PErr) (he : retryable e = true)
    (hrun : run attempt = Except.error e) :
    retryGo cfg run attempt 1 = ⟨1, [], Except.error e⟩ := by
  conv_lhs => rw [retryGo]
  simp only [hrun, he]

theorem retryGo_retry_step (cfg : RetryConfig) (run : Nat → Except PErr α)
    (attempt f : Nat) (e : PErr) (he : retryable e = true)
    (hrun : run attempt = Except.error e) :
    retryGo cfg run attempt (f + 1 + 1) =
      ⟨(retryGo cfg run (attempt + 1) (f + 1)).tries + 1,
        backoff cfg attempt :: (retryGo cfg run (attempt + 1) (f + 1)).waits,
        (retryGo cfg run (attempt + 1) (f + 1)).result⟩ := by
  conv_lhs => rw [retryGo]
  simp only [hrun, he]

theorem retryGo_always_fail (cfg : RetryConfig) (err : Nat → PErr)
    (hr : ∀ a, retryable (err a) = true) :
    ∀ f attempt,
      retryGo (α := Unit) cfg (fun a => Except.error (err a)) attempt (f + 1) =
        ⟨f + 1, (List.range f).map (fun i => backoff cfg (attempt + i)),
          Except.error (err (attempt + f))⟩ := by
  intro f
  induction f with
  | zero =>
    intro attempt
    rw [retryGo_last_err cfg _ attempt (err attempt) (hr attempt) rfl]
    simp
  | succ f ih =>
    intro attempt
    rw [retryGo_retry_step cfg _ attempt f (err attempt) (hr attempt) rfl]
    rw [ih (attempt + 1)]
    refine congrArg₂ (StageReport.mk (f + 1 + 1)) ?_ ?_
    · rw [List.range_succ_eq_map, List.map_cons, List.map_map]
      refine congrArg₂ List.cons (by rw [Nat.add_zero]) ?_
      apply List.map_congr_left
      intro i _
      have h : attempt + 1 + i = attempt + Nat.succ i := by omega
      simp [Function.comp, h]
    · have h2 : attempt + 1 + f = attempt + (f + 1) := by omega
      rw [h2]

theorem retryGo_fatal (cfg : RetryConfig) (run : Nat → Except PErr α)
    (attempt f : Nat) (e : PErr) (he : retryable e = false)
    (hrun : run attempt = Except.error e) :
    retryGo cfg run attempt (f + 1) = ⟨1, [], Except.error e⟩ := by
  simp only [retryGo, hrun, he]

theorem retryGo_ok_attempt (cfg : RetryConfig) (run : Nat → Except PErr α) :
    ∀ f attempt v, (retryGo cfg run attempt f).result = Except.ok v →
      ∃ a, run a = Except.ok v := by
  intro f
  induction f with
  | zero => intro attempt v h; simp [retryGo] at h
  | succ f ih =>
    intro attempt v h
    rcases hrun : run attempt with e | a
    · simp only [retryGo, hrun] at h
      cases hre : retryable e with
      | false => simp [hre] at h
      | true =>
        cases f with
        | zero => simp [hre] at h
        | succ f2 =>
          simp only [hre] at h
          exact ih (attempt + 1) v h
    · refine ⟨attempt, ?_⟩
      simp only [retryGo, hrun] at h
      rw [hrun, h]

/-- C2: on a retryable failure the orchestrator waits
`backoff(attempt) = min(max_delay, base * 2^attempt)` before re-entering
the same stage; a stage that always fails transiently is tried exactly
`max_attempts` times, after which the outcome is the failure with the
last error recorded. -/
theorem retry_backoff_and_exhaustion (cfg : RetryConfig) (err : Nat → PErr)
    (m : Nat) (hm : cfg.maxAttempts = m + 1)
    (hr : ∀ a, retryable (err a) = true) :
    retryRun (α := Unit) cfg (fun a => Except.error (err a)) =
      ⟨m + 1,
        (List.range m).map (fun i => min cfg.maxDelay (cfg.base * 2 ^ i)),
        Except.error (err m)⟩ := by
  unfold retryRun
  rw [hm, retryGo_always_fail cfg err hr m 0]
  simp [backoff]

/-- Witness for C2 at a concrete configuration: base 1, max delay 60,
3 attempts, a stage always failing with a timeout. -/
theorem retry_backoff_and_exhaustion_witness :
    retryRun (α := Unit) ⟨1, 60, 3⟩ (fun _ => Except.error PErr.timeoutError) =
      ⟨2 + 1,
        (List.range 2).map (fun i => min 60 (1 * 2 ^ i)),
        Except.error PErr.timeoutError⟩ :=
  retry_backoff_and_exhaustion ⟨1, 60, 3⟩ (fun _ => PErr.timeoutError) 2 rfl
    (fun _ => rfl)

/-- C6: when extraction always fails with `UnsupportedFormatError`, the
extraction stage is tried once with no backoff waits (zero retries), and
the job goes directly to `Failed` with that error, no stage progress
having been persisted past job creation. -/
theorem unsupported_format_never_retried (cfg : RetryConfig)
    (size overlap : Int) (env : Env) (m : Nat)
    (hm : cfg.maxAttempts = m + 1)
    (hx : ∀ a, env.extractA a = Except.error PErr.unsupportedFormat) :
    (retryRun cfg env.extractA).tries = 1 ∧
    (retryRun cfg env.extractA).waits = [] ∧
    (runPipeline cfg size overlap env).status = JobStatus.failed ∧
    (runPipeline cfg size overlap env).doc.errorMessage =
      some PErr.unsupportedFormat ∧
    (runPipeline cfg size overlap env).progressLog = [0] := by
  have hret : retryRun cfg env.extractA =
      ⟨1, [], Except.error PErr.unsupportedFormat⟩ := by
    unfold retryRun
    rw [hm]
    exact retryGo_fatal cfg env.extractA 0 m PErr.unsupportedFormat rfl (hx 0)
  unfold runPipeline
  rw [hret]
  simp

/-- Witness for C6: a `.exe`-style submission whose extraction always
reports `UnsupportedFormatError`, with 3 attempts allowed. -/
theorem unsupported_format_never_retried_witness :
    (retryRun ⟨1, 60, 3⟩
      (fun _ => (Except.error PErr.unsupportedFormat :
        Except PErr (List Char)))).tries = 1 ∧
    (retryRun ⟨1, 60, 3⟩
      (fun _ => (Except.error PErr.unsupportedFormat :
        Except PErr (List Char)))).waits = [] ∧
    (runPipeline ⟨1, 60, 3⟩ 4 1
      ⟨fun _ => Except.error PErr.unsupportedFormat,
       fun _ => Except.ok ⟨['S'], 95⟩,
       fun _ => Except.ok [],
       fun _ => Except.ok [],
       fun _ => true, fun _ => true⟩).status = JobStatus.failed ∧
    (runPipeline ⟨1, 60, 3⟩ 4 1
      ⟨fun _ => Except.error PErr.unsupportedFormat,
       fun _ => Except.ok ⟨['S'], 95⟩,
       fun _ => Except.ok [],
       fun _ => Except.ok [],
       fun _ => true, fun _ => true⟩).doc.errorMessage =
      some PErr.unsupportedFormat ∧
    (runPipeline ⟨1, 60, 3⟩ 4 1
      ⟨fun _ => Except.error PErr.unsupportedFormat,
       fun _ => Except.ok ⟨['S'], 95⟩,
       fun _ => Except.ok [],
       fun _ => Except.ok [],
       fun _ => true, fun _ => true⟩).progressLog = [0] :=
  unsupported_format_never_retried ⟨1, 60, 3⟩ 4 1
    ⟨fun _ => Except.error PErr.unsupportedFormat,
     fun _ => Except.ok ⟨['S'], 95⟩,
     fun _ => Except.ok [],
     fun _ => Except.ok [],
     fun _ => true, fun _ => true⟩ 2 rfl (fun _ => rfl)

/-- C7: over any collaborators and configuration, every persisted
progress value of a run lies in `[0, 100]`, the persisted progress
sequence is monotonically non-decreasing, and progress 100 is persisted
only if some Storing attempt had both the metadata commit and the vector
commit succeed. -/
theorem progress_bounded_monotone (cfg : RetryConfig) (size overlap : Int)
    (env : Env) :
    (∀ p ∈ (runPipeline cfg size overlap env).progressLog, p ≤ 100) ∧
    List.Chain' (fun a b => a ≤ b)
      (runPipeline cfg size overlap env).progressLog ∧
    (100 ∈ (runPipeline cfg size overlap env).progressLog →
      ∃ a, env.metaCommitA a = true ∧ env.vecCommitA a = true) := by
  unfold runPipeline
  split
  · refine ⟨fun p hp => ?_, ?_, fun hmem => ?_⟩
    · simp at hp; omega
    · simp
    · simp at hmem
  split
  · refine ⟨fun p hp => ?_, ?_, fun hmem => ?_⟩
    · simp at hp; omega
    · simp
    · simp at hmem
  split
  · refine ⟨fun p hp => ?_, ?_, fun hmem => ?_⟩
    · simp at hp; omega
    · simp
    · simp at hmem
  split
  · refine ⟨fun p hp => ?_, ?_, fun hmem => ?_⟩
    · simp at hp; omega
    · simp
    · simp at hmem
  split
  · refine ⟨fun p hp => ?_, ?_, fun hmem => ?_⟩
    · simp at hp; omega
    · simp
    · simp at hmem
  split
  · refine ⟨fun p hp => ?_, ?_, fun hmem => ?_⟩
    · simp at hp; omega
    · simp
    · simp at hmem
  rename_i u h6
  refine ⟨fun p hp => ?_, ?_, fun _ => ?_⟩
  · simp at hp; omega
  · simp
  obtain ⟨a, ha⟩ := retryGo_ok_attempt cfg (storeAttempt env)
    cfg.maxAttempts 0 u h6
  refine ⟨a, ?_⟩
  by_cases hc : env.metaCommitA a && env.vecCommitA a
  · simp only [Bool.and_eq_true] at hc
    exact hc
  · unfold storeAttempt at ha
    rw [if_neg hc] at ha
    exact absurd ha (by simp)

/-- Witness for C7 at a concrete fully-succeeding run: both Storing
commits succeed and the persisted progress walk is bounded, monotone and
ends at 100. -/
theorem progress_bounded_monotone_witness :
    (∀ p ∈ (runPipeline ⟨1, 60, 2⟩ 4 1
      ⟨fun _ => Except.ok ['x'],
       fun _ => Except.ok ⟨['S'], 90⟩,
       fun _ => Except.ok [],
       fun _ => Except.ok [],
       fun _ => true, fun _ => true⟩).progressLog, p ≤ 100) ∧
    List.Chain' (fun a b => a ≤ b)
      (runPipeline ⟨1, 60, 2⟩ 4 1
        ⟨fun _ => Except.ok ['x'],
         fun _ => Except.ok ⟨['S'], 90⟩,
         fun _ => Except.ok [],
         fun _ => Except.ok [],
         fun _ => true, fun _ => true⟩).progressLog ∧
    (100 ∈ (runPipeline ⟨1, 60, 2⟩ 4 1
      ⟨fun _ => Except.ok ['x'],
       fun _ => Except.ok ⟨['S'], 90⟩,
       fun _ => Except.ok [],
       fun _ => Except.ok [],
       fun _ => true, fun _ => true⟩).progressLog →
      ∃ a : Nat, (true : Bool) = true ∧ (true : Bool) = true) :=
  progress_bounded_monotone ⟨1, 60, 2⟩ 4 1
    ⟨fun _ => Except.ok ['x'],
     fun _ => Except.ok ⟨['S'], 90⟩,
     fun _ => Except.ok [],
     fun _ => Except.ok [],
     fun _ => true, fun _ => true⟩

/-- C8: when extraction and classification succeed and the
entity-extraction stage fails after its retries, the classification is
still persisted on the Document while the job is marked failed with the
entity error; the failure does not roll the classification back. -/
theorem classification_persisted_on_entity_failure (cfg : RetryConfig)
    (size overlap : Int) (env : Env) (t : List Char) (c : Classification)
    (e : PErr)
    (hx : (retryRun cfg env.extractA).result = Except.ok t)
    (hc : (retryRun cfg env.classifyA).result = Except.ok c)
    (he : (retryRun cfg env.entitiesA).result = Except.error e) :
    (runPipeline cfg size overlap env).doc.classification = some c ∧
    (runPipeline cfg size overlap env).status = JobStatus.failed ∧
    (runPipeline cfg size overlap env).doc.errorMessage = some e := by
  unfold runPipeline
  rw [hx, hc, he]
  simp

/-- Witness for C8: extraction and classification succeed, entity
extraction fails on every attempt; the persisted Document keeps the
classification while the job fails. -/
theorem classification_persisted_on_entity_failure_witness :
    (runPipeline ⟨1, 60, 2⟩ 4 1
      ⟨fun _ => Except.ok ['d', 'o', 'c'],
       fun _ => Except.ok ⟨['S'], 95⟩,
       fun _ => Except.error PErr.entityExtractionError,
       fun _ => Except.ok [],
       fun _ => true, fun _ => true⟩).doc.classification =
      some ⟨['S'], 95⟩ ∧
    (runPipeline ⟨1, 60, 2⟩ 4 1
      ⟨fun _ => Except.ok ['d', 'o', 'c'],
       fun _ => Except.ok ⟨['S'], 95⟩,
       fun _ => Except.error PErr.entityExtractionError,
       fun _ => Except.ok [],
       fun _ => true, fun _ => true⟩).status = JobStatus.failed ∧
    (runPipeline ⟨1, 60, 2⟩ 4 1
      ⟨fun _ => Except.ok ['d', 'o', 'c'],
       fun _ => Except.ok ⟨['S'], 95⟩,
       fun _ => Except.error PErr.entityExtractionError,
       fun _ => Except.ok [],
       fun _ => true, fun _ => true⟩).doc.errorMessage =
      some PErr.entityExtractionError :=
  classification_persisted_on_entity_failure ⟨1, 60, 2⟩ 4 1
    ⟨fun _ => Except.ok ['d', 'o', 'c'],
     fun _ => Except.ok ⟨['S'], 95⟩,
     fun _ => Except.error PErr.entityExtractionError,
     fun _ => Except.ok [],
     fun _ => true, fun _ => true⟩
    ['d', 'o', 'c'] ⟨['S'], 95⟩ PErr.entityExtractionError rfl rfl rfl

theorem findActive_eq_none (s : Store) (h : Nat)
    (h0 : countActive s h = 0) : findActive s h = none := by
  unfold findActive
  rw [List.find?_eq_none]
  intro j hj hp
  unfold countActive at h0
  rw [List.length_eq_zero, List.filter_eq_nil_iff] at h0
  exact absurd hp (h0 j hj)

theorem submit_twice (s : Store) (h : Nat) (h0 : countActive s h = 0) :
    (submit s h).2 = s.nextId ∧
    submit (submit s h).1 h = ((submit s h).1, s.nextId) ∧
    countActive (submit s h).1 h = 1 := by
  have hnone := findActive_eq_none s h h0
  have hfirst : submit s h =
      (⟨if s.docs.any (fun d => d.hash == h) then s.docs
          else ⟨s.nextId, h⟩ :: s.docs,
        ⟨s.nextId, h, JobStatus.pending⟩ :: s.jobs, s.nextId + 1⟩, s.nextId) := by
    unfold submit
    rw [hnone]
  have hpred : (fun j => j.docHash == h && isActive j.status)
      (⟨s.nextId, h, JobStatus.pending⟩ : Job) = true := by
    simp [isActive]
  refine ⟨by rw [hfirst], ?_, ?_⟩
  · rw [hfirst]
    unfold submit findActive
    simp only [List.find?_cons, hpred]
  · rw [hfirst]
    unfold countActive
    simp only [List.filter_cons, hpred, if_pos]
    unfold countActive at h0
    rw [List.length_eq_zero] at h0
    simp [h0]

/-- C1: submitting two ingestion events for the same content hash, when
no active job for it exists yet, yields exactly one active (non-terminal)
job for that hash: the second submission returns the same job id and
creates nothing — it attaches to the first. -/
theorem duplicate_submit_joins_existing_job (s : Store) (h : Nat)
    (h0 : countActive s h = 0) :
    (submit (submit s h).1 h).2 = (submit s h).2 ∧
    (submit (submit s h).1 h).1 = (submit s h).1 ∧
    countActive (submit s h).1 h = 1 ∧
    countActive (submit (submit s h).1 h).1 h = 1 := by
  obtain ⟨hid, hjoin, hcount⟩ := submit_twice s h h0
  refine ⟨?_, ?_, hcount, ?_⟩
  · rw [hjoin, hid]
  · rw [hjoin]
  · rw [hjoin]
    exact hcount

/-- Witness for C1: two submissions for hash 42 against an empty store. -/
theorem duplicate_submit_joins_existing_job_witness :
    (submit (submit ⟨[], [], 0⟩ 42).1 42).2 = (submit ⟨[], [], 0⟩ 42).2 ∧
    (submit (submit ⟨[], [], 0⟩ 42).1 42).1 = (submit ⟨[], [], 0⟩ 42).1 ∧
    countActive (submit ⟨[], [], 0⟩ 42).1 42 = 1 ∧
    countActive (submit (submit ⟨[], [], 0⟩ 42).1 42).1 42 = 1 :=
  duplicate_submit_joins_existing_job ⟨[], [], 0⟩ 42 rfl

/-- C9: the content hash is a deterministic function of the byte stream
(equal bytes always hash equally); a document row created at ingestion
carries that hash; re-ingesting the same bytes is detected by the hash
and skipped — the store is unchanged and the same job is returned. -/
theorem content_hash_deterministic_dedup (s : Store) (b1 b2 : List Nat)
    (hb : b1 = b2) (h0 : countActive s (contentHash b1) = 0)
    (hd : s.docs.any (fun d => d.hash == contentHash b1) = false) :
    contentHash b1 = contentHash b2 ∧
    DocRec.mk s.nextId (contentHash b1) ∈ (ingest s b1).1.docs ∧
    (ingest (ingest s b1).1 b2).1 = (ingest s b1).1 ∧
    (ingest (ingest s b1).1 b2).2 = (ingest s b1).2 := by
  subst hb
  obtain ⟨hid, hjoin, hcount⟩ := submit_twice s (contentHash b1) h0
  refine ⟨rfl, ?_, ?_, ?_⟩
  · unfold ingest submit
    rw [findActive_eq_none s (contentHash b1) h0]
    simp only [hd]
    simp
  · unfold ingest
    rw [hjoin]
  · unfold ingest
    rw [hjoin, hid]

/-- Witness for C9: ingesting the byte stream `[1, 2, 3]` twice into an
empty store. -/
theorem content_hash_deterministic_dedup_witness :
    contentHash [1, 2, 3] = contentHash [1, 2, 3] ∧
    DocRec.mk 0 (contentHash [1, 2, 3]) ∈ (ingest ⟨[], [], 0⟩ [1, 2, 3]).1.docs ∧
    (ingest (ingest ⟨[], [], 0⟩ [1, 2, 3]).1 [1, 2, 3]).1 =
      (ingest ⟨[], [], 0⟩ [1, 2, 3]).1 ∧
    (ingest (ingest ⟨[], [], 0⟩ [1, 2, 3]).1 [1, 2, 3]).2 =
      (ingest ⟨[], [], 0⟩ [1, 2, 3]).2 :=
  content_hash_deterministic_dedup ⟨[], [], 0⟩ [1, 2, 3] [1, 2, 3] rfl rfl rfl

theorem filter_map_replace (store : List VecRec) (r : VecRec) :
    (store.map (fun s => if s.id == r.id then r else s)).filter
        (fun s => s.id == r.id) =
      List.replicate (store.filter (fun s => s.id == r.id)).length r := by
  induction store with
  | nil => rfl
  | cons a l ih =>
    by_cases hai : a.id = r.id
    · simp [hai, List.replicate_succ]
      simpa using ih
    · simp [hai]
      simpa using ih

theorem upsert_filter (store : List VecRec) (r : VecRec)
    (h1 : countId store r.id ≤ 1) :
    (upsert store r).filter (fun s => s.id == r.id) = [r] := by
  unfold upsert
  by_cases hany : store.any (fun s => s.id == r.id) = true
  · rw [if_pos hany, filter_map_replace]
    obtain ⟨x, hx, hpx⟩ := List.any_eq_true.mp hany
    have hmem : x ∈ store.filter (fun s => s.id == r.id) :=
      List.mem_filter.mpr ⟨hx, hpx⟩
    have hlen : (store.filter (fun s => s.id == r.id)).length = 1 := by
      have hpos : 0 < (store.filter (fun s => s.id == r.id)).length :=
        List.length_pos.mpr (List.ne_nil_of_mem hmem)
      unfold countId at h1
      omega
    rw [hlen]
    rfl
  · rw [if_neg hany, List.filter_append]
    have hnil : store.filter (fun s => s.id == r.id) = [] := by
      rw [List.filter_eq_nil_iff]
      intro x hx hpx
      exact hany (List.any_eq_true.mpr ⟨x, hx, hpx⟩)
    rw [hnil]
    simp

/-- C3: vector-store upsert is idempotent by chunk id — for any store
holding at most one record under an id, upserting that id twice (with
possibly different vectors and metadata) leaves exactly one record under
the id, and it is the record of the later upsert. -/
theorem upsert_idempotent_by_id (store : List VecRec) (r1 r2 : VecRec)
    (hid : r1.id = r2.id) (h1 : countId store r1.id ≤ 1) :
    (upsert (upsert store r1) r2).filter (fun s => s.id == r2.id) = [r2] ∧
    countId (upsert (upsert store r1) r2) r2.id = 1 := by
  have ha := upsert_filter store r1 h1
  have hcount : countId (upsert store r1) r2.id ≤ 1 := by
    rw [← hid]
    unfold countId
    rw [ha]
    simp
  have hb := upsert_filter (upsert store r1) r2 hcount
  refine ⟨hb, ?_⟩
  unfold countId
  rw [hb]
  rfl

/-- Witness for C3: the same chunk id 5 upserted twice with different
vectors and metadata into an empty store. -/
theorem upsert_idempotent_by_id_witness :
    (upsert (upsert [] ⟨5, [1, 0], [(1, 2)]⟩) ⟨5, [0, 7], [(3, 4)]⟩).filter
        (fun s => s.id == (⟨5, [0, 7], [(3, 4)]⟩ : VecRec).id) =
      [⟨5, [0, 7], [(3, 4)]⟩] ∧
    countId (upsert (upsert [] ⟨5, [1, 0], [(1, 2)]⟩) ⟨5, [0, 7], [(3, 4)]⟩)
        (⟨5, [0, 7], [(3, 4)]⟩ : VecRec).id = 1 :=
  upsert_idempotent_by_id [] ⟨5, [1, 0], [(1, 2)]⟩ ⟨5, [0, 7], [(3, 4)]⟩
    rfl (by decide)

theorem jsTrim_eq_nil (s : List Char) (h : ∀ c ∈ s, isWs c = true) :
    jsTrim s = [] := by
  unfold jsTrim
  rw [List.dropWhile_eq_nil_iff.mpr h]
  rfl

/-- C10: whenever the query string is empty or all-whitespace, triggering
a search does nothing — no semantic or hybrid request is issued, the
page state (in particular the displayed results) is unchanged, and the
search button is disabled. -/
theorem empty_query_no_search (api : SearchReq → List SearchResultR)
    (st : PageState)
    (h : st.query = [] ∨ ∀ c ∈ st.query, isWs c = true) :
    handleSearch api st = (st, []) ∧ searchDisabled st = true := by
  have ht : jsTrim st.query = [] := by
    rcases h with h | h
    · rw [h]
      rfl
    · exact jsTrim_eq_nil _ h
  constructor
  · unfold handleSearch
    rw [if_pos ht]
  · unfold searchDisabled
    rw [ht]
    simp

/-- Witness for C10: a whitespace-only query (a space and a tab) with
results already displayed; the state is untouched, no request happens,
the button is disabled. -/
theorem empty_query_no_search_witness :
    handleSearch (fun _ => [])
        ⟨[' ', '\t'], SearchKind.semantic, [⟨1, 9⟩], false⟩ =
      (⟨[' ', '\t'], SearchKind.semantic, [⟨1, 9⟩], false⟩, []) ∧
    searchDisabled ⟨[' ', '\t'], SearchKind.semantic, [⟨1, 9⟩], false⟩ = true :=
  empty_query_no_search (fun _ => [])
    ⟨[' ', '\t'], SearchKind.semantic, [⟨1, 9⟩], false⟩
    (Or.inr (by decide))

/-- C4: for a valid configuration and non-empty input, chunking
succeeds, each window after the first begins exactly `overlap`
characters before the end of the previous window's source span (adjacent
chunks share exactly `overlap` source characters), and concatenating the
chunk texts in order with the overlaps removed reconstructs the input
text exactly. -/
theorem chunk_overlap_and_reconstruction (text : List Char)
    (size overlap : Int) (hs : 0 < size) (ho : overlap < size)
    (hne : text ≠ []) :
    ∃ cs, chunk text size overlap = Except.ok cs ∧
      List.Chain' (chunkAdj size.toNat overlap.toNat) cs ∧
      reconstruct overlap.toNat cs = text := by
  have hvalid : ¬ (size ≤ 0 ∨ overlap ≥ size) := by omega
  have hnat : overlap.toNat < size.toNat := by omega
  refine ⟨chunkGo text size.toNat overlap.toNat 0 text.length, ?_, ?_, ?_⟩
  · unfold chunk
    rw [if_neg hvalid, if_neg hne]
  · exact chain_chunkGo text size.toNat overlap.toNat hnat text.length 0
  · have hlen : 0 < text.length := List.length_pos.mpr hne
    have hrec := reconstruct_chunkGo text size.toNat overlap.toNat hnat
      text.length 0 hlen (by omega)
    simpa using hrec

/-- Witness for C4: the five-character text `abcde` chunked with size 3,
overlap 1. -/
theorem chunk_overlap_and_reconstruction_witness :
    ∃ cs, chunk ['a', 'b', 'c', 'd', 'e'] 3 1 = Except.ok cs ∧
      List.Chain' (chunkAdj (3 : Int).toNat (1 : Int).toNat) cs ∧
      reconstruct (1 : Int).toNat cs = ['a', 'b', 'c', 'd', 'e'] :=
  chunk_overlap_and_reconstruction ['a', 'b', 'c', 'd', 'e'] 3 1
    (by decide) (by decide) (by decide)

/-- C5: `chunk` fails exactly on an invalid configuration
(`chunk_size <= 0` or `overlap >= chunk_size`, with
`ConfigurationError`); under a valid configuration a non-empty input
yields at least one chunk, and an empty input yields the empty sequence,
not an error. -/
theorem chunk_fails_iff_invalid_config (text : List Char)
    (size overlap : Int) :
    (chunk text size overlap = Except.error PErr.configurationError ↔
      size ≤ 0 ∨ overlap ≥ size) ∧
    (0 < size → overlap < size → text ≠ [] →
      ∃ cs, chunk text size overlap = Except.ok cs ∧ 0 < cs.length) ∧
    (0 < size → overlap < size → text = [] →
      chunk text size overlap = Except.ok []) := by
  refine ⟨⟨?_, ?_⟩, ?_, ?_⟩
  · intro hchunk
    by_contra hval
    unfold chunk at hchunk
    rw [if_neg hval] at hchunk
    by_cases hte : text = []
    · rw [if_pos hte] at hchunk
      exact absurd hchunk (by simp)
    · rw [if_neg hte] at hchunk
      exact absurd hchunk (by simp)
  · intro hval
    unfold chunk
    rw [if_pos hval]
  · intro hs ho hne
    have hval : ¬ (size ≤ 0 ∨ overlap ≥ size) := by omega
    unfold chunk
    rw [if_neg hval, if_neg hne]
    refine ⟨_, rfl, ?_⟩
    obtain ⟨k, hk⟩ : ∃ k, text.length = k + 1 := by
      cases text with
      | nil => exact absurd rfl hne
      | cons a as => exact ⟨as.length, rfl⟩
    rw [hk]
    obtain ⟨tl, htl⟩ := chunkGo_succ_shape text size.toNat overlap.toNat 0 k
    rw [htl]
    simp
  · intro hs ho hte
    have hval : ¬ (size ≤ 0 ∨ overlap ≥ size) := by omega
    unfold chunk
    rw [if_neg hval, if_pos hte]

/-- Witness for C5: a valid configuration (size 2, overlap 1) on the
non-empty text `ab` and on the empty text. -/
theorem chunk_fails_iff_invalid_config_witness :
    (∃ cs, chunk ['a', 'b'] 2 1 = Except.ok cs ∧ 0 < cs.length) ∧
    chunk [] 2 1 = Except.ok [] :=
  ⟨(chunk_fails_iff_invalid_config ['a', 'b'] 2 1).2.1
      (by decide) (by decide) (by decide),
    (chunk_fails_iff_invalid_config [] 2 1).2.2
      (by decide) (by decide) rfl⟩

end Doclingflow
